import Mathlib

/-
Verification of the goobtool server bootstrap and store layer.

The definitions below are a shallow embedding of the Go sources:
  - internal/store/store.go        (CheckExists)
  - internal/store/interface.go    (StoreState)
  - internal/store/sqlite          (SQLiteStore: Open, Close, InitSchema,
                                    CheckState, GetSchemaVersion)
  - cmd/app/main.go                (jsonOnly guard, runServe mode decision,
                                    admin loopback bind protocol)

External effects (the filesystem stat, the SQLite driver, the network
stack) are represented by explicit inputs: a stat result, the database
file content, failure oracles for sql.Open / Exec / Begin / Commit, the
parse result of the admin host, and the bind result.  Machine behaviour
of the Go standard library that the code relies on (Header.Get returning
the empty string for an absent header, database/sql Close being safe on
an already-closed handle, sql.ErrNoRows for an empty result set) is
encoded where the corresponding call appears.
-/

namespace Goobtool

/-- StoreState from internal/store/interface.go. -/
inductive StoreState
  | missing
  | uninitialized
  | versionMismatch
  | ready
  deriving DecidableEq, Repr

/-- One row of the schema_migrations table: columns version (TEXT PRIMARY KEY) and applied_at (INTEGER NOT NULL), from internal/store/sqlite/schema.go. -/
structure MigrationRow where
  version : String
  appliedAt : Nat
  deriving DecidableEq, Repr

/-- Content of the SQLite database file relevant to the store layer: `none` means the schema_migrations table does not exist, `some rows` means it exists with the given rows. -/
structure DB where
  migrations : Option (List MigrationRow)
  deriving DecidableEq, Repr

/-- An sql.DB connection handle: the database it reaches plus whether Close has been called on it. -/
structure ConnHandle where
  db : DB
  closed : Bool
  deriving DecidableEq, Repr

/-- SQLiteStore from the sqlite store module: path, optional open handle, expected schema version. -/
structure SQLiteStore where
  dbPath : String
  db : Option ConnHandle
  expectedSchema : String
  deriving DecidableEq, Repr

/-- New from the sqlite store module: the handle field starts unset. -/
def New (dbPath expectedSchema : String) : SQLiteStore :=
  { dbPath := dbPath, db := none, expectedSchema := expectedSchema }

/-- The fixed pragma sequence applied by Open, in source order. -/
def pragmas : List String :=
  ["PRAGMA journal_mode=WAL",
   "PRAGMA synchronous=NORMAL",
   "PRAGMA foreign_keys=ON",
   "PRAGMA busy_timeout=5000"]

/-- Result of SQLiteStore.Open: the store after the call, the raw connection created by sql.Open if any (so we can observe whether it was closed), and the returned error. -/
structure OpenOut where
  store : SQLiteStore
  conn : Option ConnHandle
  err : Option String
  deriving DecidableEq, Repr

/-- The pragma loop of Open: on the first Exec failure the connection is closed and the error returned; otherwise the loop finishes with the connection still open. `execFails` is the failure oracle for db.Exec. -/
def applyPragmas (conn : ConnHandle) (execFails : String → Bool) :
    List String → ConnHandle × Option String
  | [] => (conn, none)
  | p :: rest =>
    if execFails p then ({ conn with closed := true }, some ("failed to set pragma " ++ p))
    else applyPragmas conn execFails rest

/-- Open from the sqlite store module: sql.Open, then the pragma loop; only on full success is the handle stored in the db field. `file` is the database content the connection reaches. -/
def SQLiteStore.Open (s : SQLiteStore) (file : DB) (sqlOpenFails : Bool)
    (execFails : String → Bool) : OpenOut :=
  if sqlOpenFails then ⟨s, none, some "failed to open database"⟩
  else
    let conn : ConnHandle := ⟨file, false⟩
    match applyPragmas conn execFails pragmas with
    | (c, some e) => ⟨s, some c, some e⟩
    | (c, none) => ⟨{ s with db := some c }, some c, none⟩

/-- database/sql semantics of db.Close: releasing the underlying resource at most once; the second component counts frees performed by this call. -/
def connClose (c : ConnHandle) : ConnHandle × Nat :=
  if c.closed then (c, 0) else ({ c with closed := true }, 1)

/-- Result of SQLiteStore.Close: store after the call, returned error, number of frees of the underlying resource performed. -/
structure CloseOut where
  store : SQLiteStore
  err : Option String
  frees : Nat
  deriving DecidableEq, Repr

/-- Calling Close on a nil sql.DB pointer would be a nil-pointer panic in Go; `none` represents that panic. The source guards the call with a nil check. -/
def rawDBClose : Option ConnHandle → Option (ConnHandle × Nat)
  | none => none
  | some c => some (connClose c)

/-- Close from the sqlite store module: if the handle field is set, delegate to db.Close, else return nil. `none` as overall result would mean a panic. -/
def SQLiteStore.Close (s : SQLiteStore) : Option CloseOut :=
  match s.db with
  | some _ =>
    match rawDBClose s.db with
    | none => none
    | some (c, k) => some ⟨{ s with db := some c }, none, k⟩
  | none => some ⟨s, none, 0⟩

/-- ORDER BY applied_at DESC LIMIT 1 over the rows of schema_migrations: a row with maximal applied_at (SQLite leaves the order of equal keys unspecified; this model keeps the earliest such row). -/
def latestRow : List MigrationRow → Option MigrationRow
  | [] => none
  | r :: rs =>
    match latestRow rs with
    | none => some r
    | some m => if m.appliedAt > r.appliedAt then some m else some r

/-- GetSchemaVersion from the sqlite store module: query the latest version row; sql.ErrNoRows (empty table) yields the empty string with no error; a missing table makes the query itself fail. -/
def SQLiteStore.GetSchemaVersion (s : SQLiteStore) : String × Option String :=
  match s.db with
  | none => ("", some "database not opened")
  | some conn =>
    match conn.db.migrations with
    | none => ("", some "failed to query schema version: no such table")
    | some rows =>
      match latestRow rows with
      | none => ("", none)
      | some r => (r.version, none)

/-- CheckState from the sqlite store module: count the schema_migrations entries in sqlite_master; zero means uninitialized; otherwise classify by the recorded version against the expected one. -/
def SQLiteStore.CheckState (s : SQLiteStore) : StoreState × Option String :=
  match s.db with
  | none => (.missing, some "database not opened")
  | some conn =>
    match conn.db.migrations with
    | none => (.uninitialized, none)
    | some _ =>
      match s.GetSchemaVersion with
      | (_, some e) => (.uninitialized, some ("failed to get schema version: " ++ e))
      | (v, none) =>
        if v ≠ s.expectedSchema then (.versionMismatch, none)
        else (.ready, none)

/-- InitSchema from the sqlite store module: inside one transaction, create the schema_migrations table if absent and insert the version row; the committed database changes only at Commit, and the deferred Rollback discards the transaction view on every error path. The INSERT fails on a primary-key conflict (version already recorded); `beginFails`, `createFails` and `commitFails` are failure oracles for the other statements. -/
def SQLiteStore.InitSchema (s : SQLiteStore) (version : String) (now : Nat)
    (beginFails createFails commitFails : Bool) : SQLiteStore × Option String :=
  match s.db with
  | none => (s, some "database not opened")
  | some conn =>
    if beginFails then (s, some "failed to begin transaction")
    else if createFails then (s, some "failed to create schema")
    else
      let tx1 : DB := ⟨some (conn.db.migrations.getD [])⟩
      if (tx1.migrations.getD []).any (fun r => r.version == version) then
        (s, some "failed to insert schema version")
      else
        let tx2 : DB := ⟨some (tx1.migrations.getD [] ++ [⟨version, now⟩])⟩
        if commitFails then (s, some "failed to commit transaction")
        else ({ s with db := some { conn with db := tx2 } }, none)

/-- A store that has been opened onto a fresh (empty, schema-less) database file, as produced by db create right after Open succeeds. -/
def freshOpenStore (p exp : String) : SQLiteStore :=
  ⟨p, some ⟨⟨none⟩, false⟩, exp⟩

/-- Dropping the schema_migrations table (the corruption simulated by the round-trip scenario). -/
def dropMigrations (s : SQLiteStore) : SQLiteStore :=
  { s with db := s.db.map fun c => ⟨⟨none⟩, c.closed⟩ }

/-- Result of os.Stat as seen by CheckExists: the file does not exist, the stat failed some other way, or it returned file info with the directory bit. -/
inductive StatRes
  | notExist
  | statError (msg : String)
  | info (isDir : Bool)
  deriving DecidableEq, Repr

/-- CheckExists from internal/store/store.go, over the stat result for the database file path. -/
def CheckExists : StatRes → Bool × Option String
  | .notExist => (false, none)
  | .statError m => (false, some ("failed to check store existence: " ++ m))
  | .info true => (false, some "datastore path is a directory, expected file")
  | .info false => (true, none)

/-- ServingMode: the route table loaded by runServe. -/
inductive ServingMode
  | normal
  | installation
  deriving DecidableEq, Repr

/-- Outcome of the startup decision in runServe: either the process exits non-zero before any listener is opened (guidance records whether the db create instruction was printed), or it proceeds to serve in one of the two modes. -/
inductive ServeOutcome
  | exitEarly (guidance : Bool)
  | serving (mode : ServingMode)
  deriving DecidableEq, Repr

/-- The startup decision sequence of runServe in cmd/app/main.go: CheckExists, Open, CheckState, then the if-chain choosing the installation or normal route tables. All exits here happen before either listener is bound. -/
def runServeDecision (stat : StatRes) (content : DB) (expected : String)
    (sqlOpenFails : Bool) (execFails : String → Bool) : ServeOutcome :=
  match CheckExists stat with
  | (_, some _) => .exitEarly false
  | (false, none) => .exitEarly true
  | (true, none) =>
    let o := (New "goobtool.db" expected).Open content sqlOpenFails execFails
    match o.err with
    | some _ => .exitEarly false
    | none =>
      match o.store.CheckState with
      | (_, some _) => .exitEarly false
      | (st, none) =>
        if st = .uninitialized then .serving .installation
        else if st = .versionMismatch then .serving .installation
        else .serving .normal

/-- An admin-channel request as the jsonOnly guard sees it: the method string and the results of Header.Get for Accept and Content-Type (Go returns the empty string when the header is absent). -/
structure Request where
  method : String
  accept : String
  contentType : String
  deriving DecidableEq, Repr

/-- Helper for goContains: does `sub` occur as a contiguous run inside the second list. -/
def containsAux (sub : List Char) : List Char → Bool
  | [] => sub.isEmpty
  | c :: rest => sub.isPrefixOf (c :: rest) || containsAux sub rest

/-- strings.Contains: the second string occurs as a substring of the first. -/
def goContains (s sub : String) : Bool :=
  containsAux sub.data s.data

/-- What the guard does with a request: write an error response and stop, or pass it to the wrapped handler. -/
inductive GuardOut
  | reject (status : Nat) (body : List (String × String))
  | pass
  deriving DecidableEq, Repr

/-- writeJSONError from cmd/app/main.go: the standard error body with the stable code and human message. -/
def writeJSONError (status : Nat) (code msg : String) : GuardOut :=
  .reject status [("error", code), ("message", msg)]

/-- jsonOnly from cmd/app/main.go: the content-negotiation guard on every admin route. -/
def jsonOnly (r : Request) : GuardOut :=
  if !goContains r.accept "application/json" && r.accept != "" then
    writeJSONError 406 "not_acceptable" "Accept must include application/json"
  else if r.method != "GET" && !(r.contentType.startsWith "application/json") then
    writeJSONError 415 "unsupported_media_type" "Content-Type must be application/json"
  else .pass

/-- Result of net.ParseIP on the configured admin host, abstracted to the one property the code consults. -/
structure ParsedIP where
  ipIsLoopback : Bool
  deriving DecidableEq, Repr

/-- The local TCP address a successful bind reports, abstracted to the loopback property the re-check consults. -/
structure TCPAddr where
  ipIsLoopback : Bool
  deriving DecidableEq, Repr

/-- Outcome of the admin bind protocol: a non-zero exit before any bind is attempted, a fatal bind failure, a fatal exit after the post-bind re-check (recording that the listener was closed first), or serving on the bound address. -/
inductive AdminBindOutcome
  | exitBeforeBind
  | exitBindFailed
  | exitAfterBind (listenerClosed : Bool)
  | serving (addrIsLoopback : Bool)
  deriving DecidableEq, Repr

/-- The admin bind protocol of cmd/app/main.go, identical in runServe and serveInstallationApp: parse the host and require loopback before binding; bind; re-check the bound local address and close the listener plus exit if it is not loopback. `parsed` is the net.ParseIP result (none when unparseable); `bindRes` is the net.Listen result (none on bind failure). -/
def adminBindFlow (parsed : Option ParsedIP) (bindRes : Option TCPAddr) : AdminBindOutcome :=
  match parsed with
  | none => .exitBeforeBind
  | some ip =>
    if !ip.ipIsLoopback then .exitBeforeBind
    else
      match bindRes with
      | none => .exitBindFailed
      | some addr =>
        if !addr.ipIsLoopback then .exitAfterBind true
        else .serving addr.ipIsLoopback

/-! ## Theorems -/

/-- C6: the existence probe distinguishes three outcomes: a missing file is Exists=false with no error (and that is the only way to get that result, so no failure is ever treated as absence); a path that is a directory rather than a regular file is an error; any other stat failure is propagated as an error. -/
theorem checkExists_trichotomy (st : StatRes) :
    (CheckExists st = (false, none) ↔ st = StatRes.notExist) ∧
    (∀ m, st = StatRes.statError m →
      CheckExists st = (false, some ("failed to check store existence: " ++ m))) ∧
    (st = StatRes.info true →
      CheckExists st = (false, some "datastore path is a directory, expected file")) := by
  refine ⟨?_, ?_, ?_⟩
  · cases st with
    | notExist => simp [CheckExists]
    | statError m => simp [CheckExists]
    | info d => cases d <;> simp [CheckExists]
  · rintro m rfl; rfl
  · rintro rfl; rfl

/-- C10: on an open handle whose schema_migrations table exists but holds no rows, GetSchemaVersion succeeds with the empty string — the very same result as a table whose recorded version is the empty string, so the two are indistinguishable at this interface. -/
theorem getSchemaVersion_empty_table (p exp : String) (b : Bool) (t : Nat) :
    SQLiteStore.GetSchemaVersion ⟨p, some ⟨⟨some []⟩, b⟩, exp⟩ = ("", none) ∧
    SQLiteStore.GetSchemaVersion ⟨p, some ⟨⟨some [⟨"", t⟩]⟩, b⟩, exp⟩ =
      SQLiteStore.GetSchemaVersion ⟨p, some ⟨⟨some []⟩, b⟩, exp⟩ :=
  ⟨rfl, rfl⟩

/-- C1 is refuted: on an open store whose schema_migrations table exists with no rows and whose expected version is 0.1, CheckState returns VersionMismatch with no error — not Uninitialized. -/
theorem checkState_empty_table_counterexample :
    SQLiteStore.CheckState ⟨"goobtool.db", some ⟨⟨some []⟩, false⟩, "0.1"⟩
        = (StoreState.versionMismatch, none) ∧
    StoreState.versionMismatch ≠ StoreState.uninitialized := by
  refine ⟨by decide, by decide⟩

/-- C1 as amended: an empty version-tracking table is classified through the recorded-version path, because getSchemaVersion reports it as version empty-string with no error: CheckState returns VersionMismatch whenever the expected version is nonempty and Ready when the expected version is the empty string, never Uninitialized. -/
theorem checkState_empty_table_amended (p exp : String) (b : Bool) :
    SQLiteStore.CheckState ⟨p, some ⟨⟨some []⟩, b⟩, exp⟩ =
      ((if exp = "" then StoreState.ready else StoreState.versionMismatch), none) := by
  by_cases h : exp = ""
  · subst h; rfl
  · have hne : "" ≠ exp := fun he => h he.symm
    simp [SQLiteStore.CheckState, SQLiteStore.GetSchemaVersion, latestRow, h, hne]

/-- C9: Close on a never-opened (or failed-open) handle is a no-op returning no error; Close never panics (the nil guard means the raw close is never reached on a nil handle); and two successive Closes free the underlying resource at most once. -/
theorem close_idempotent_safe (s : SQLiteStore) :
    (s.db = none → s.Close = some ⟨s, none, 0⟩) ∧
    (∃ o1, s.Close = some o1 ∧ o1.err = none ∧
      ∃ o2, o1.store.Close = some o2 ∧ o2.err = none ∧ o1.frees + o2.frees ≤ 1) := by
  obtain ⟨p, db, exp⟩ := s
  cases db with
  | none =>
    exact ⟨fun _ => rfl,
      ⟨⟨p, none, exp⟩, none, 0⟩, rfl, rfl, ⟨⟨p, none, exp⟩, none, 0⟩, rfl, rfl, by simp⟩
  | some c =>
    obtain ⟨d, closed⟩ := c
    refine ⟨fun hn => by simp at hn, ?_⟩
    cases closed with
    | false =>
      exact ⟨⟨⟨p, some ⟨d, true⟩, exp⟩, none, 1⟩, rfl, rfl,
        ⟨⟨p, some ⟨d, true⟩, exp⟩, none, 0⟩, rfl, rfl, by simp⟩
    | true =>
      exact ⟨⟨⟨p, some ⟨d, true⟩, exp⟩, none, 0⟩, rfl, rfl,
        ⟨⟨p, some ⟨d, true⟩, exp⟩, none, 0⟩, rfl, rfl, by simp⟩

/-- If the pragma loop reports an error, the connection it hands back has already been closed. -/
theorem applyPragmas_err_closed (eF : String → Bool) :
    ∀ (l : List String) (conn c : ConnHandle) (e : String),
      applyPragmas conn eF l = (c, some e) → c.closed = true := by
  intro l
  induction l with
  | nil =>
    intro conn c e h
    simp [applyPragmas] at h
  | cons p rest ih =>
    intro conn c e h
    by_cases hp : eF p
    · rw [applyPragmas, if_pos hp] at h
      obtain ⟨h1, -⟩ := Prod.mk.injEq .. ▸ h
      exact h1 ▸ rfl
    · rw [applyPragmas, if_neg hp] at h
      exact ih conn c e h

/-- C7: whenever Open returns an error, the store is unchanged (so its handle field stays unset) and any connection sql.Open had produced has been closed before the return — no partially-configured handle escapes. -/
theorem open_no_partial_handle (s : SQLiteStore) (file : DB) (oF : Bool)
    (eF : String → Bool) (e : String)
    (h : (s.Open file oF eF).err = some e) :
    (s.Open file oF eF).store = s ∧
    ∀ c, (s.Open file oF eF).conn = some c → c.closed = true := by
  cases oF with
  | true => exact ⟨rfl, fun c hc => by simp [SQLiteStore.Open] at hc⟩
  | false =>
    have hO : s.Open file false eF =
        (match applyPragmas ⟨file, false⟩ eF pragmas with
          | (c, some e) => ⟨s, some c, some e⟩
          | (c, none) => ⟨{ s with db := some c }, some c, none⟩) := rfl
    rcases happ : applyPragmas ⟨file, false⟩ eF pragmas with ⟨c0, oe⟩
    cases oe with
    | none => rw [hO, happ] at h; exact absurd h (by simp)
    | some e0 =>
      rw [hO, happ] at h ⊢
      refine ⟨rfl, fun c hc => ?_⟩
      have hcc : c0 = c := by simpa using hc
      exact hcc ▸ applyPragmas_err_closed eF pragmas ⟨file, false⟩ c0 e0 happ

/-- Witness for C7: the theorem applied where the very first pragma fails. -/
theorem open_no_partial_handle_witness :
    ((New "goobtool.db" "0.1").Open ⟨none⟩ false (fun _ => true)).store
        = New "goobtool.db" "0.1" ∧
    ∀ c, ((New "goobtool.db" "0.1").Open ⟨none⟩ false (fun _ => true)).conn = some c →
      c.closed = true :=
  open_no_partial_handle (New "goobtool.db" "0.1") ⟨none⟩ false (fun _ => true)
    "failed to set pragma PRAGMA journal_mode=WAL" rfl

/-- C2: the guard rejects 406 with the standard error body exactly when the Accept header is present (nonempty) and does not contain application/json; rejects 415 with the standard error body exactly when the 406 rule did not fire, the method is not GET (the one read-only method of the admin channel) and Content-Type does not begin with application/json; otherwise passes the request through — in particular a GET with no Accept header and no body passes. -/
theorem jsonOnly_content_negotiation (r : Request) :
    (jsonOnly r = writeJSONError 406 "not_acceptable" "Accept must include application/json" ↔
      (goContains r.accept "application/json" = false ∧ r.accept ≠ "")) ∧
    (jsonOnly r = writeJSONError 415 "unsupported_media_type" "Content-Type must be application/json" ↔
      (¬(goContains r.accept "application/json" = false ∧ r.accept ≠ "") ∧
        r.method ≠ "GET" ∧ r.contentType.startsWith "application/json" = false)) ∧
    (jsonOnly r = GuardOut.pass ↔
      (¬(goContains r.accept "application/json" = false ∧ r.accept ≠ "") ∧
        ¬(r.method ≠ "GET" ∧ r.contentType.startsWith "application/json" = false))) ∧
    jsonOnly ⟨"GET", "", ""⟩ = GuardOut.pass := by
  have hGet : jsonOnly ⟨"GET", "", ""⟩ = GuardOut.pass := by decide
  refine ⟨?_, ?_, ?_, hGet⟩ <;>
    · simp only [jsonOnly, writeJSONError, Bool.and_eq_true, Bool.not_eq_true', bne_iff_ne]
      split_ifs with h1 h2 <;> simp_all <;> tauto

/-- C3: initialising a fresh datastore with version V and then checking state with expected version V yields Ready; checking with any other expected version yields VersionMismatch; and after the version-tracking table is deleted, checking yields Uninitialized. -/
theorem initSchema_checkState_roundtrip (p V W : String) (now : Nat) (h : W ≠ V) :
    ∃ s1, SQLiteStore.InitSchema (freshOpenStore p V) V now false false false = (s1, none) ∧
      s1.CheckState = (StoreState.ready, none) ∧
      SQLiteStore.CheckState { s1 with expectedSchema := W } = (StoreState.versionMismatch, none) ∧
      (dropMigrations s1).CheckState = (StoreState.uninitialized, none) := by
  refine ⟨⟨p, some ⟨⟨some [⟨V, now⟩]⟩, false⟩, V⟩, rfl, ?_, ?_, rfl⟩
  · simp [SQLiteStore.CheckState, SQLiteStore.GetSchemaVersion, latestRow]
  · have hne : V ≠ W := fun he => h he.symm
    simp [SQLiteStore.CheckState, SQLiteStore.GetSchemaVersion, latestRow, hne]

/-- Witness for C3: version 0.1 recorded, checked against 0.1 and against 0.2, then with the table dropped. -/
theorem initSchema_checkState_roundtrip_witness :
    ∃ s1, SQLiteStore.InitSchema (freshOpenStore "goobtool.db" "0.1") "0.1" 42 false false false
        = (s1, none) ∧
      s1.CheckState = (StoreState.ready, none) ∧
      SQLiteStore.CheckState { s1 with expectedSchema := "0.2" }
        = (StoreState.versionMismatch, none) ∧
      (dropMigrations s1).CheckState = (StoreState.uninitialized, none) :=
  initSchema_checkState_roundtrip "goobtool.db" "0.1" "0.2" 42 (by decide)

/-- C8: InitSchema is atomic: on any failure (begin, create, primary-key conflict on the insert, commit) the store and its committed database are unchanged — so the version row and the table appear together or not at all — and on success the table exists and contains the inserted version row. -/
theorem initSchema_atomic (s : SQLiteStore) (v : String) (now : Nat) (bf cf mf : Bool) :
    (∀ e, (SQLiteStore.InitSchema s v now bf cf mf).2 = some e →
      (SQLiteStore.InitSchema s v now bf cf mf).1 = s) ∧
    ((SQLiteStore.InitSchema s v now bf cf mf).2 = none →
      ∃ c rows, (SQLiteStore.InitSchema s v now bf cf mf).1.db = some c ∧
        c.db.migrations = some rows ∧ (⟨v, now⟩ : MigrationRow) ∈ rows) := by
  obtain ⟨p, db, exp⟩ := s
  cases db with
  | none => exact ⟨fun e _ => rfl, fun hn => by simp [SQLiteStore.InitSchema] at hn⟩
  | some conn =>
    cases bf with
    | true => exact ⟨fun e _ => rfl, fun hn => by simp [SQLiteStore.InitSchema] at hn⟩
    | false =>
      cases cf with
      | true => exact ⟨fun e _ => rfl, fun hn => by simp [SQLiteStore.InitSchema] at hn⟩
      | false =>
        by_cases hdup :
            ((conn.db.migrations.getD []).any (fun r => r.version == v)) = true
        · exact ⟨fun e _ => by simp [SQLiteStore.InitSchema, hdup],
            fun hn => by simp [SQLiteStore.InitSchema, hdup] at hn⟩
        · cases mf with
          | true => exact ⟨fun e _ => by simp [SQLiteStore.InitSchema, hdup],
              fun hn => by simp [SQLiteStore.InitSchema, hdup] at hn⟩
          | false =>
            refine ⟨fun e he => ?_, fun _ => ?_⟩
            · simp [SQLiteStore.InitSchema, hdup] at he
            · refine ⟨{ conn with db := ⟨some (conn.db.migrations.getD [] ++ [⟨v, now⟩])⟩ },
                conn.db.migrations.getD [] ++ [⟨v, now⟩], ?_, rfl, ?_⟩
              · simp [SQLiteStore.InitSchema, hdup]
              · simp

/-- CheckState on a store whose handle field is set never errors and never reports Missing. -/
theorem checkState_opened (s : SQLiteStore) (conn : ConnHandle) (h : s.db = some conn) :
    (s.CheckState).2 = none ∧ (s.CheckState).1 ≠ StoreState.missing := by
  obtain ⟨p, db, exp⟩ := s
  simp only at h
  subst h
  simp only [SQLiteStore.CheckState, SQLiteStore.GetSchemaVersion]
  rcases hmg : conn.db.migrations with _ | rows
  · simp [hmg]
  · rcases hl : latestRow rows with _ | r
    · by_cases hv : ("" : String) = exp <;> simp [hmg, hl, hv]
    · by_cases hv : r.version = exp <;> simp [hmg, hl, hv]

/-- C4: the startup decision of runServe: a missing datastore file exits non-zero with the db create instruction before any listener is opened (the process enters neither serving mode); and whenever serve does reach a serving mode, the mode is Normal exactly when the schema state is Ready and Installation exactly when it is any other state. -/
theorem servingMode_selection (stat : StatRes) (content : DB) (exp : String)
    (oF : Bool) (eF : String → Bool) :
    (stat = StatRes.notExist →
      runServeDecision stat content exp oF eF = ServeOutcome.exitEarly true) ∧
    (∀ m, runServeDecision stat content exp oF eF = ServeOutcome.serving m →
      ∃ st, ((New "goobtool.db" exp).Open content oF eF).store.CheckState = (st, none) ∧
        (m = ServingMode.normal ↔ st = StoreState.ready) ∧
        (m = ServingMode.installation ↔ st ≠ StoreState.ready)) := by
  constructor
  · rintro rfl; rfl
  · intro m hm
    cases stat with
    | notExist => exact absurd hm (by simp [runServeDecision, CheckExists])
    | statError msg => exact absurd hm (by simp [runServeDecision, CheckExists])
    | info d =>
      cases d with
      | true => exact absurd hm (by simp [runServeDecision, CheckExists])
      | false =>
        cases oF with
        | true => exact absurd hm (by simp [runServeDecision, CheckExists, SQLiteStore.Open])
        | false =>
          rcases happ : applyPragmas ⟨content, false⟩ eF pragmas with ⟨c0, oe⟩
          cases oe with
          | some e0 =>
            exact absurd hm (by simp [runServeDecision, CheckExists, SQLiteStore.Open, happ])
          | none =>
            have hOpen : (New "goobtool.db" exp).Open content false eF =
                ⟨⟨"goobtool.db", some c0, exp⟩, some c0, none⟩ := by
              simp [SQLiteStore.Open, New, happ]
            rcases hcs : SQLiteStore.CheckState ⟨"goobtool.db", some c0, exp⟩ with ⟨st, oerr⟩
            have hoc := checkState_opened ⟨"goobtool.db", some c0, exp⟩ c0 rfl
            rw [hcs] at hoc
            obtain ⟨he, hnm⟩ := hoc
            simp only at he hnm
            subst he
            simp only [runServeDecision, CheckExists] at hm
            rw [hOpen] at hm
            simp only at hm
            rw [hcs] at hm
            refine ⟨st, by rw [hOpen]; exact hcs, ?_⟩
            cases st with
            | missing => exact absurd rfl hnm
            | uninitialized => simp at hm; subst hm; decide
            | versionMismatch => simp at hm; subst hm; decide
            | ready => simp at hm; subst hm; decide

/-- C5: the admin bind protocol never serves on a non-loopback address: an unparseable or non-loopback configured host exits non-zero before any bind is attempted; a successful bind whose re-checked local address is not loopback closes the listener and exits fatally; and any serving outcome is on a loopback address. -/
theorem admin_loopback_invariant (parsed : Option ParsedIP) (bindRes : Option TCPAddr) :
    ((parsed = none ∨ parsed = some ⟨false⟩) →
      adminBindFlow parsed bindRes = AdminBindOutcome.exitBeforeBind) ∧
    (∀ addr, bindRes = some addr → addr.ipIsLoopback = false →
      adminBindFlow parsed bindRes = AdminBindOutcome.exitBeforeBind ∨
      adminBindFlow parsed bindRes = AdminBindOutcome.exitAfterBind true) ∧
    (∀ b, adminBindFlow parsed bindRes = AdminBindOutcome.serving b → b = true) := by
  refine ⟨?_, ?_, ?_⟩
  · rintro (rfl | rfl)
    · rfl
    · rfl
  · rintro addr rfl hl
    rcases parsed with _ | ⟨_ | _⟩
    · exact Or.inl rfl
    · exact Or.inl rfl
    · right; simp [adminBindFlow, hl]
  · intro b hb
    rcases parsed with _ | ⟨_ | _⟩
    · simp [adminBindFlow] at hb
    · simp [adminBindFlow] at hb
    · rcases bindRes with _ | ⟨_ | _⟩
      · simp [adminBindFlow] at hb
      · simp [adminBindFlow] at hb
      · simp [adminBindFlow] at hb
        exact hb

end Goobtool
